import Mathlib

/-!
Shallow embedding of the lichess-autobot streaming client and game-session
orchestrator (src/lichess/api_client.py, src/ui/main_window.py,
src/ui/chess_board.py, src/engine/uci_engine.py), together with theorems
settling the specification's claims against it.
-/

namespace LichessAutobot

/-! ### NDJSON line processing

From `api_client.py`, `_stream_ndjson`, lines 199-217.  Each complete line
split out of the byte buffer is decoded to text and stripped
(`line_str = line.decode('utf-8').strip()`).  An empty line (keep-alive) is
skipped; otherwise `json.loads(line_str)` is attempted: on success the record
is yielded (and the callback invoked), on `json.JSONDecodeError` the line is
dropped (`continue`) and the loop goes on with the next line.  JSON decoding
is the Python standard library's; it is modelled as an arbitrary function
`decode : String → Option J`, `none` standing for `JSONDecodeError`. -/

/-- Python `str.strip()` applied to a decoded line: drop leading and trailing
whitespace characters. -/
def pyStrip (s : String) : String :=
  String.mk (((s.data.dropWhile Char.isWhitespace).reverse.dropWhile
    Char.isWhitespace).reverse)

/-- One iteration of the `while b'\n' in buffer:` body of `_stream_ndjson`
applied to one complete line, threading the list of records yielded so far. -/
def processLine {J : Type} (decode : String → Option J) (yielded : List J)
    (line : String) : List J :=
  let lineStr := pyStrip line
  if lineStr = "" then yielded
  else
    match decode lineStr with
    | some data => yielded ++ [data]
    | none => yielded

/-- The records yielded by `_stream_ndjson` for a sequence of complete raw
lines, in arrival order. -/
def processLines {J : Type} (decode : String → Option J) (lines : List String) :
    List J :=
  lines.foldl (processLine decode) []

/-- The per-line outcome: `none` when the line is skipped (keep-alive) or
dropped (decode failure), `some` the record otherwise. -/
def lineRecord {J : Type} (decode : String → Option J) (line : String) :
    Option J :=
  if pyStrip line = "" then none else decode (pyStrip line)

theorem foldl_processLine_eq {J : Type} (decode : String → Option J) :
    ∀ (lines : List String) (acc : List J),
      lines.foldl (processLine decode) acc = acc ++ lines.filterMap (lineRecord decode) := by
  intro lines
  induction lines with
  | nil => intro acc; simp
  | cons l rest ih =>
    intro acc
    rw [List.foldl_cons, ih]
    unfold processLine lineRecord
    by_cases h : pyStrip l = ""
    · simp [h]
    · cases hd : decode (pyStrip l) <;> simp [h, hd]

theorem processLines_eq_filterMap {J : Type} (decode : String → Option J)
    (lines : List String) :
    processLines decode lines = lines.filterMap (lineRecord decode) := by
  unfold processLines
  rw [foldl_processLine_eq]
  simp

/-! ### Control-stream reconnect loop

From `main_window.py`, `_run_event_stream`, lines 1219-1251.  `reconnect_delay`
starts at `1.0` and `max_reconnect_delay` is `30.0`.  Whenever `stream_events`
returns (the stream ended) or raises a non-cancellation exception (stream
error) while `self.is_running` holds, the loop sleeps `reconnect_delay`
seconds and then sets `reconnect_delay = min(reconnect_delay * 2,
max_reconnect_delay)`.  No statement of the loop ever resets
`reconnect_delay`, and the loop body never reads how many events the
terminated connection had delivered.  All float values taken by the delay are
the integers 1, 2, 4, 8, 16, 30, exactly representable, so the delay is
modelled in `Nat` seconds.  Each element of `outcomes` is the number of events
one connection delivered before it ended or errored; the result is the list of
back-off delays slept, one per terminated connection. -/

/-- Delays slept by `_run_event_stream` starting from current delay `d`. -/
def reconnectDelaysFrom (d : Nat) : List Nat → List Nat
  | [] => []
  | _ :: rest => d :: reconnectDelaysFrom (min (d * 2) 30) rest

/-- Delays slept by a fresh `_run_event_stream` task (`reconnect_delay = 1.0`). -/
def reconnectDelays (outcomes : List Nat) : List Nat :=
  reconnectDelaysFrom 1 outcomes

theorem reconnectDelaysFrom_eq :
    ∀ (outcomes : List Nat) (d : Nat), d ≤ 30 →
      reconnectDelaysFrom d outcomes =
        (List.range outcomes.length).map fun k => min (2 ^ k * d) 30 := by
  intro outcomes
  induction outcomes with
  | nil => intro d _; simp [reconnectDelaysFrom]
  | cons o rest ih =>
    intro d hd
    rw [reconnectDelaysFrom, List.length_cons, List.range_succ_eq_map,
      List.map_cons, List.map_map, ih (min (d * 2) 30) (min_le_right _ _)]
    congr 1
    · simp [Nat.min_eq_left hd]
    · apply List.map_congr_left
      intro k _
      simp only [Function.comp_apply]
      rcases le_or_lt (d * 2) 30 with h | h
      · rw [min_eq_left h]
        congr 1
        rw [Nat.succ_eq_add_one]
        ring
      · rw [min_eq_right (le_of_lt h)]
        have h1 : 30 ≤ 2 ^ k * 30 :=
          Nat.le_mul_of_pos_left 30 (Nat.pos_pow_of_pos k (by norm_num))
        have h2 : 30 ≤ 2 ^ (k + 1) * d := by
          calc 30 ≤ d * 2 := le_of_lt h
          _ ≤ 2 ^ k * (d * 2) := Nat.le_mul_of_pos_left _ (Nat.pos_pow_of_pos k (by norm_num))
          _ = 2 ^ (k + 1) * d := by ring

        rw [min_eq_right h1, min_eq_right h2]

/-- A concrete JSON decoder used to instantiate the stream theorems: accepts
exactly the line "ok". -/
def decodeOk : String → Option Nat :=
  fun s => if s = "ok" then some 1 else none

/-- C9: in `_stream_ndjson`, a raw line that is empty after stripping (a
keep-alive) is silently skipped and never yielded; a non-empty line on which
JSON decoding fails is dropped without terminating the stream, the remaining
lines still being processed; and the yielded records are exactly the
successfully decoded lines, in arrival order. -/
theorem c9_keepalive_and_malformed_lines {J : Type} (decode : String → Option J)
    (lines pre post : List String) (l : String) :
    processLines decode lines = lines.filterMap (lineRecord decode) ∧
    (pyStrip l = "" →
      processLines decode (pre ++ l :: post) = processLines decode (pre ++ post)) ∧
    (decode (pyStrip l) = none →
      processLines decode (pre ++ l :: post) = processLines decode (pre ++ post)) := by
  refine ⟨processLines_eq_filterMap decode lines, ?_, ?_⟩ <;> intro h <;>
    simp [processLines_eq_filterMap, lineRecord, h]

/-- Witness for C9 at concrete lines: a keep-alive line " " and an
undecodable line "bad" are both dropped without affecting the records
yielded for the surrounding lines. -/
theorem c9_witness :
    processLines decodeOk (["ok"] ++ " " :: ["ok"]) =
      processLines decodeOk (["ok"] ++ ["ok"]) ∧
    processLines decodeOk (["ok"] ++ "bad" :: ["ok"]) =
      processLines decodeOk (["ok"] ++ ["ok"]) :=
  ⟨(c9_keepalive_and_malformed_lines decodeOk [] ["ok"] ["ok"] " ").2.1 (by decide),
   (c9_keepalive_and_malformed_lines decodeOk [] ["ok"] ["ok"] "bad").2.2 (by decide)⟩

/-- C8: for n consecutive failures of the control stream with no intervening
successful connection (each connection delivers 0 events), the delays slept
before the successive reconnects are 1, 2, 4, 8, 16, 30, 30, 30, ... seconds:
starting at 1 s, doubling after each failure, capped at 30 s. -/
theorem c8_backoff_doubles_and_caps :
    (∀ n : Nat, reconnectDelays (List.replicate n 0) =
      (List.range n).map fun k => min (2 ^ k) 30) ∧
    reconnectDelays (List.replicate 8 0) = [1, 2, 4, 8, 16, 30, 30, 30] := by
  constructor
  · intro n
    rw [reconnectDelays, reconnectDelaysFrom_eq _ 1 (by norm_num)]
    simp
  · decide

/-- C4 counterexample: in the run whose second connection delivered 5 events
(a successful reconnect that delivered events) before ending, the delay slept
after that connection is 4 s, not the 1 s the claim requires. -/
theorem c4_counterexample :
    reconnectDelays [0, 5, 0] = [1, 2, 4] ∧
    (reconnectDelays [0, 5, 0])[2]? ≠ some 1 := by decide

/-- C4 (amended): `_run_event_stream` never resets `reconnect_delay`; the k-th
delay slept is min(2^k, 30) seconds, depending only on how many connections
have terminated so far and not on whether any of them was a successful
reconnect that delivered events. -/
theorem c4_delay_never_reset (outcomes : List Nat) :
    reconnectDelays outcomes =
      (List.range outcomes.length).map fun k => min (2 ^ k) 30 := by
  rw [reconnectDelays, reconnectDelaysFrom_eq _ 1 (by norm_num)]
  simp

/-! ### Board reconstruction from the cumulative move list

From `chess_board.py`: `ChessBoardWidget.__init__` (lines 176-186),
`set_position_from_moves` (lines 313-341), `_rebuild_board_at_ply`
(lines 343-353) and `get_live_board` (lines 407-412).  The chess rules live in
the external python-chess library, so the embedding is parameterised over that
library's interface: `fromUci` models `chess.Move.from_uci` (`none` standing
for the `ValueError` it raises on a malformed token), `isLegal` models
`move in board.legal_moves`, `push` models `board.push(move)`, and `initBoard`
models `chess.Board()`, the starting position. -/

structure ChessLib where
  Move : Type
  Board : Type
  initBoard : Board
  fromUci : String → Option Move
  isLegal : Board → Move → Bool
  push : Board → Move → Board

/-- Python `str.split()` with no separator, as used on `moves_uci`: split on
runs of whitespace, yielding no empty tokens. -/
def pySplitAux : List Char → List Char → List String
  | [], acc => if acc = [] then [] else [String.mk acc.reverse]
  | c :: cs, acc =>
    if c.isWhitespace then
      if acc = [] then pySplitAux cs []
      else String.mk acc.reverse :: pySplitAux cs []
    else pySplitAux cs (c :: acc)

def pySplit (s : String) : List String :=
  pySplitAux s.data []

/-- The `for move_str in move_list:` loop of `set_position_from_moves`,
threading the accumulated `self.move_history` and `temp_board`: a token on
which `chess.Move.from_uci` raises `ValueError` breaks out of the loop; a
parsed move that is not in `temp_board.legal_moves` is skipped and the
remaining tokens are still tried. -/
def parseMovesLoop (L : ChessLib) :
    List String → List L.Move → L.Board → List L.Move × L.Board
  | [], hist, b => (hist, b)
  | t :: rest, hist, b =>
    match L.fromUci t with
    | none => (hist, b)
    | some m =>
      if L.isLegal b m then parseMovesLoop L rest (hist ++ [m]) (L.push b m)
      else parseMovesLoop L rest hist b

/-- The fields of `ChessBoardWidget` read or written by
`set_position_from_moves` and its helpers, with their `__init__` meaning:
displayed `board`, `last_move`, `move_history`, `current_ply`,
`is_viewing_live`. -/
structure BoardWidgetState (L : ChessLib) where
  board : L.Board
  last_move : Option L.Move
  move_history : List L.Move
  current_ply : Nat
  is_viewing_live : Bool

/-- A freshly constructed `ChessBoardWidget` (lines 178-186). -/
def initWidget (L : ChessLib) : BoardWidgetState L :=
  ⟨L.initBoard, none, [], 0, true⟩

/-- `_rebuild_board_at_ply`: replay `move_history[:ply]` onto a fresh
`chess.Board()`; `last_move` is set only at iteration index `ply - 1`, so it
is the move at that index when `1 ≤ ply ≤ len(move_history)` and `None`
otherwise. -/
def rebuildBoardAtPly (L : ChessLib) (hist : List L.Move) (ply : Nat) :
    L.Board × Option L.Move :=
  ((hist.take ply).foldl L.push L.initBoard,
   if ply = 0 then none else hist[ply - 1]?)

/-- `set_position_from_moves`: reset the history, replay the incoming
space-separated UCI string from scratch, then rebuild the displayed board at
the current view ply (the live ply when `is_viewing_live`). -/
def set_position_from_moves (L : ChessLib) (w : BoardWidgetState L)
    (moves_uci : String) : BoardWidgetState L :=
  let hist := (parseMovesLoop L (if moves_uci = "" then [] else pySplit moves_uci)
    [] L.initBoard).1
  let ply := if w.is_viewing_live then hist.length else w.current_ply
  let bl := rebuildBoardAtPly L hist ply
  { board := bl.1, last_move := bl.2, move_history := hist, current_ply := ply,
    is_viewing_live := w.is_viewing_live }

/-- `get_live_board`: replay the full move history onto a fresh board. -/
def get_live_board (L : ChessLib) (w : BoardWidgetState L) : L.Board :=
  w.move_history.foldl L.push L.initBoard

/-- A concrete instantiation of the python-chess interface, used to evaluate
the theorems below: a 4-character token parses to itself, a move is legal as
long as it has not been played yet, and a board is the list of moves played on
it.  On every concrete input used below this instantiation agrees with
python-chess: "e2e4", "e7e5" and "d2d4" all parse and are legal in the
positions in which they are tried, "xx" fails to parse, and an immediately
repeated "e2e4" is illegal. -/
@[reducible] def toyLib : ChessLib where
  Move := String
  Board := List String
  initBoard := []
  fromUci t := if t.length = 4 then some t else none
  isLegal b m := !b.contains m
  push b m := b ++ [m]

theorem set_position_collapse (L : ChessLib) (w : BoardWidgetState L)
    (m1 m2 : String) :
    set_position_from_moves L (set_position_from_moves L w m1) m2 =
      set_position_from_moves L w m2 := by
  simp only [set_position_from_moves]
  cases hv : w.is_viewing_live <;> simp [hv]

theorem foldl_set_position_collapse (L : ChessLib) :
    ∀ (records : List String) (w : BoardWidgetState L) (m : String),
      List.foldl (set_position_from_moves L) w (records ++ [m]) =
        set_position_from_moves L w m := by
  intro records
  induction records with
  | nil => intro w m; simp
  | cons r rest ih =>
    intro w m
    rw [List.cons_append, List.foldl_cons, ih, set_position_collapse]

theorem parseMovesLoop_break (L : ChessLib) (t : String)
    (h : L.fromUci t = none) (B : List String) :
    ∀ (A : List String) (hist : List L.Move) (b : L.Board),
      parseMovesLoop L (A ++ t :: B) hist b = parseMovesLoop L A hist b := by
  intro A
  induction A with
  | nil => intro hist b; simp [parseMovesLoop, h]
  | cons a A ih =>
    intro hist b
    rw [List.cons_append]
    cases ha : L.fromUci a with
    | none => simp [parseMovesLoop, ha]
    | some ma =>
      cases hl : L.isLegal b ma <;> simp [parseMovesLoop, ha, hl, ih]

theorem parseMovesLoop_skip (L : ChessLib) (t : String) (m : L.Move)
    (h : L.fromUci t = some m) (B : List String) :
    ∀ (A : List String) (hist : List L.Move) (b : L.Board),
      L.isLegal (parseMovesLoop L A hist b).2 m = false →
      parseMovesLoop L (A ++ t :: B) hist b = parseMovesLoop L (A ++ B) hist b := by
  intro A
  induction A with
  | nil =>
    intro hist b hleg
    simp only [parseMovesLoop] at hleg
    simp [parseMovesLoop, h, hleg]
  | cons a A ih =>
    intro hist b hleg
    cases ha : L.fromUci a with
    | none => simp [parseMovesLoop, ha]
    | some ma =>
      cases hl : L.isLegal b ma with
      | true =>
        simp only [parseMovesLoop, ha, hl, if_true] at hleg
        simp [parseMovesLoop, ha, hl, ih _ _ hleg]
      | false =>
        simp only [parseMovesLoop, ha, hl, if_false] at hleg
        simp [parseMovesLoop, ha, hl, ih _ _ hleg]

/-- C3: processing any sequence of gameState move lists leaves the widget in
the state produced by processing the final list alone (the board is rebuilt
from scratch on every record, so duplicate delivery is idempotent), and the
live board after processing a list is the replay of exactly that list's
accepted moves from the initial position. -/
theorem c3_rebuild_from_scratch_idempotent (L : ChessLib)
    (w : BoardWidgetState L) (records : List String) (m : String) :
    List.foldl (set_position_from_moves L) w (records ++ [m]) =
      set_position_from_moves L w m ∧
    set_position_from_moves L (set_position_from_moves L w m) m =
      set_position_from_moves L w m ∧
    get_live_board L (set_position_from_moves L w m) =
      (parseMovesLoop L (if m = "" then [] else pySplit m) [] L.initBoard).1.foldl
        L.push L.initBoard :=
  ⟨foldl_set_position_collapse L records w m,
   set_position_collapse L w m m,
   by simp [get_live_board, set_position_from_moves]⟩

/-- C2 counterexample: after the widget accepted "e2e4 e7e5" (two plies),
delivering the move list "d2d4" — which is not an extension of the accepted
history — is not rejected: the accepted history is replaced by ["d2d4"], so
it changes and its length drops from 2 to 1, and no mismatch is detected
anywhere (no such check exists in `set_position_from_moves` or
`_on_game_state`). -/
theorem c2_counterexample :
    (set_position_from_moves toyLib (initWidget toyLib)
        "e2e4 e7e5").move_history = ["e2e4", "e7e5"] ∧
    (set_position_from_moves toyLib
        (set_position_from_moves toyLib (initWidget toyLib) "e2e4 e7e5")
        "d2d4").move_history = ["d2d4"] ∧
    ¬ (["d2d4"].take 2 = ["e2e4", "e7e5"]) ∧
    (set_position_from_moves toyLib
        (set_position_from_moves toyLib (initWidget toyLib) "e2e4 e7e5")
        "d2d4").move_history.length <
      (set_position_from_moves toyLib (initWidget toyLib)
        "e2e4 e7e5").move_history.length := by decide

/-- C2 (amended): an incoming gameState move list is accepted unconditionally:
`set_position_from_moves` rebuilds the accepted history from scratch from the
incoming list alone — the longest accepted token prefix replayed from the
initial position — independently of the previously accepted history (there is
no extension-or-equal check, no rejection and no mismatch log entry), and
processing any list is total; consequently the accepted history length may
decrease across updates. -/
theorem c2_no_extension_check (L : ChessLib) (w w' : BoardWidgetState L)
    (moves_uci : String) :
    (set_position_from_moves L w moves_uci).move_history =
      (parseMovesLoop L (if moves_uci = "" then [] else pySplit moves_uci) []
        L.initBoard).1 ∧
    (set_position_from_moves L w moves_uci).move_history =
      (set_position_from_moves L w' moves_uci).move_history := by
  constructor <;> simp [set_position_from_moves]

/-- C10: the token loop of `set_position_from_moves` is total and processes
tokens in order: a token on which UCI parsing fails (`ValueError`) stops the
processing of all remaining tokens; a token that parses but is illegal on the board
built so far is skipped while the remaining tokens are still tried; a token
that parses to a legal move is appended to the history and pushed, in order. -/
theorem c10_token_loop_behavior (L : ChessLib) (A B : List String) (t : String)
    (hist : List L.Move) (b : L.Board) :
    (L.fromUci t = none →
      parseMovesLoop L (A ++ t :: B) hist b = parseMovesLoop L A hist b) ∧
    (∀ m, L.fromUci t = some m →
      L.isLegal (parseMovesLoop L A hist b).2 m = false →
      parseMovesLoop L (A ++ t :: B) hist b = parseMovesLoop L (A ++ B) hist b) ∧
    (∀ m, L.fromUci t = some m → L.isLegal b m = true →
      parseMovesLoop L (t :: B) hist b =
        parseMovesLoop L B (hist ++ [m]) (L.push b m)) :=
  ⟨fun h => parseMovesLoop_break L t h B A hist b,
   fun m hm hleg => parseMovesLoop_skip L t m hm B A hist b hleg,
   fun m hm hleg => by simp [parseMovesLoop, hm, hleg]⟩

/-- Witness for C10 at concrete inputs: the unparsable token "xx" stops the
loop before "e7e5" is considered; the parsed-but-illegal repeat "e2e4" is
skipped with "d2d4" still tried; and the legal "e2e4" is accepted. -/
theorem c10_witness :
    parseMovesLoop toyLib (["e2e4"] ++ "xx" :: ["e7e5"]) [] toyLib.initBoard =
      parseMovesLoop toyLib ["e2e4"] [] toyLib.initBoard ∧
    parseMovesLoop toyLib (["e2e4"] ++ "e2e4" :: ["d2d4"]) [] toyLib.initBoard =
      parseMovesLoop toyLib (["e2e4"] ++ ["d2d4"]) [] toyLib.initBoard ∧
    parseMovesLoop toyLib ("e2e4" :: ["e7e5"]) [] toyLib.initBoard =
      parseMovesLoop toyLib ["e7e5"] ([] ++ ["e2e4"])
        (toyLib.push toyLib.initBoard "e2e4") :=
  ⟨(c10_token_loop_behavior toyLib ["e2e4"] ["e7e5"] "xx" [] toyLib.initBoard).1
      (by decide),
   (c10_token_loop_behavior toyLib ["e2e4"] ["d2d4"] "e2e4" []
      toyLib.initBoard).2.1 "e2e4" (by decide) (by decide),
   (c10_token_loop_behavior toyLib [] ["e7e5"] "e2e4" [] toyLib.initBoard).2.2
      "e2e4" (by decide) (by decide)⟩

/-! ### Stop-flag observation latency of the read loop

From `api_client.py`: `READ_TIMEOUT = 60.0` (line 67) and the read loop of
`_stream_ndjson` (lines 183-231).  The loop consults `self._stopping` at the
`while not self._stopping:` guard before each blocking
`response.content.read(1024)` (and, redundantly, in the throttled check after
a chunk arrives); it is never consulted while a read is in flight.  A read
blocks until a chunk arrives or the `sock_read` timeout of `READ_TIMEOUT`
seconds elapses, in which case `aiohttp` raises and the loop exits.  Times are
modelled in whole seconds. -/

def READ_TIMEOUT : Nat := 60

/-- The time points (seconds since the loop began) at which the read loop
consults the `_stopping` flag, when the successive blocking reads return a
chunk after the delays listed in `arrivals`. -/
def stopCheckTimes : List Nat → List Nat
  | [] => [0]
  | a :: rest => 0 :: (stopCheckTimes rest).map (fun t => t + a)

/-- Whether every gap between consecutive time points is at most `bound`. -/
def gapsWithin (bound : Nat) : List Nat → Bool
  | [] => true
  | [_] => true
  | s :: t :: rest => decide (t - s ≤ bound) && gapsWithin bound (t :: rest)

theorem gapsWithin_map_add (bound a : Nat) :
    ∀ l : List Nat, gapsWithin bound (l.map (fun t => t + a)) = gapsWithin bound l := by
  intro l
  induction l with
  | nil => rfl
  | cons s rest ih =>
    cases rest with
    | nil => rfl
    | cons t rest2 =>
      simp only [List.map_cons] at ih ⊢
      rw [gapsWithin, gapsWithin, Nat.add_sub_add_right, ih]

/-- C5 counterexample: with a single keep-alive chunk arriving 30 s after the
loop starts (Lichess's keep-alive cadence is ~15-30 s per the source comments
and the socket read timeout is 60 s, so the trace is realizable), the stop
flag is consulted at t = 0 and not again until t = 30: a stop requested just
after t = 0 goes unobserved for 30 s, far beyond the claimed ~2 s bound. -/
theorem c5_counterexample :
    stopCheckTimes [30] = [0, 30] ∧ (30 : Nat) ≤ READ_TIMEOUT ∧
    gapsWithin 2 (stopCheckTimes [30]) = false := by decide

/-- C5 (amended): the `_stopping` flag is consulted only between blocking
reads, and each read returns within `READ_TIMEOUT` = 60 s (else the socket
read times out and the loop exits), so consecutive consultations are at most
60 s apart: the shutdown latency guaranteed by the cooperative flag is
bounded by the 60-second read timeout — not by ~2 s, a bound the code does
not provide (prompt shutdown relies on task cancellation in `close()`). -/
theorem c5_stop_latency_bounded_by_read_timeout :
    ∀ arrivals : List Nat, (∀ a ∈ arrivals, a ≤ READ_TIMEOUT) →
      gapsWithin READ_TIMEOUT (stopCheckTimes arrivals) = true := by
  intro arrivals
  induction arrivals with
  | nil => intro _; rfl
  | cons a rest ih =>
    intro h
    have htl : ∃ tl, stopCheckTimes rest = 0 :: tl := by
      cases rest <;> exact ⟨_, rfl⟩
    obtain ⟨tl, htl⟩ := htl
    have hrest := ih fun x hx => h x (List.mem_cons_of_mem a hx)
    rw [stopCheckTimes, htl, List.map_cons, gapsWithin]
    rw [htl] at hrest
    have hgap : (0 + a) - 0 ≤ READ_TIMEOUT := by
      simpa using h a (List.mem_cons_self a rest)
    rw [decide_eq_true hgap, Bool.true_and]
    have hmap : (0 + a) :: List.map (fun t => t + a) tl =
        (0 :: tl).map (fun t => t + a) := rfl
    rw [hmap, gapsWithin_map_add, hrest]

/-- Witness for C5 (amended) at a concrete trace: chunks after 30 s and 60 s. -/
theorem c5_witness : gapsWithin READ_TIMEOUT (stopCheckTimes [30, 60]) = true :=
  c5_stop_latency_bounded_by_read_timeout [30, 60] (by decide)

/-! ### Move scheduling, engine time cap and throttling

From `main_window.py`, `_maybe_make_move` (lines 1507-1591) and
`uci_engine.py`, `get_best_move` (lines 261-313).  `_maybe_make_move` first
returns unless `self.game_board`, `self.engine` and `self.current_game_id`
are all truthy, unless the board is not game-over, and unless the side to
move matches `self.our_color`.  It then records `think_start_time`, picks the
opening think-time range when `fullmove_number <= 10` and the midgame range
otherwise, samples `target_move_time` uniformly in the range, and awaits
`get_best_move` with `time_limit=time_max`.  After the engine returns it
computes `remaining_wait = target_move_time - elapsed` and sleeps it only if
positive, then calls `make_move(self.current_game_id, move_uci)` with no
further check.  The engine await and the sleep are cooperative suspension
points: other tasks — in particular `_on_game_finish`, which sets
`self.current_game_id = None` — may run there, so the `current_game_id` read
by the final `make_move` call can differ from the one checked at entry.
Float times are modelled as exact rationals. -/

/-- Python truthiness of the optional `current_game_id` string (`None` and
`""` are falsy). -/
def pyTruthy : Option String → Bool
  | none => false
  | some s => s != ""

/-- The `is_our_turn` computation of lines 1517-1519. -/
def isOurTurn (whiteToMove : Bool) (our_color : Option String) : Bool :=
  (whiteToMove && our_color == some "white") ||
  (!whiteToMove && our_color == some "black")

/-- The `chess.engine.Limit` built by `get_best_move` from its optional
arguments; millisecond clock values are converted to seconds, and a default
1-second time cap is used only when no argument at all was provided. -/
structure EngineLimit where
  time : Option ℚ
  depth : Option Nat
  nodes : Option Nat
  white_clock : Option ℚ
  black_clock : Option ℚ
  white_inc : Option ℚ
  black_inc : Option ℚ
deriving DecidableEq

def buildEngineLimit (time_limit : Option ℚ) (depth : Option Nat)
    (nodes : Option Nat) (wtime btime winc binc : Option ℤ) : EngineLimit :=
  let base : EngineLimit :=
    ⟨time_limit, depth, nodes,
     wtime.map (fun t => (t : ℚ) / 1000), btime.map (fun t => (t : ℚ) / 1000),
     winc.map (fun t => (t : ℚ) / 1000), binc.map (fun t => (t : ℚ) / 1000)⟩
  if time_limit = none ∧ depth = none ∧ nodes = none ∧ wtime = none ∧
      btime = none ∧ winc = none ∧ binc = none then
    { base with time := some 1 }
  else base

/-- The externally configured think-time spin-box values. -/
structure ThinkTimeConfig where
  opening_min : ℚ
  opening_max : ℚ
  midgame_min : ℚ
  midgame_max : ℚ

/-- Tier selection of lines 1544-1549: moves 1-10 use the opening range,
later moves the midgame range. -/
def thinkTimeRange (cfg : ThinkTimeConfig) (fullmove_number : Nat) : ℚ × ℚ :=
  if fullmove_number ≤ 10 then (cfg.opening_min, cfg.opening_max)
  else (cfg.midgame_min, cfg.midgame_max)

/-- The engine limit produced by the `get_best_move` call of lines 1556-1565:
`time_limit=time_max`, `nodes=1` exactly in single-node mode, and the four
clock values always passed. -/
def schedulerEngineLimit (cfg : ThinkTimeConfig) (fullmove_number : Nat)
    (singleNode : Bool) (wtime btime winc binc : ℤ) : EngineLimit :=
  buildEngineLimit (some (thinkTimeRange cfg fullmove_number).2) none
    (if singleNode then some 1 else none)
    (some wtime) (some btime) (some winc) (some binc)

/-- The throttle of lines 1571-1577: sleep `target_move_time - elapsed`
exactly when it is positive. -/
def throttleWait (target_move_time elapsed : ℚ) : ℚ :=
  let remaining_wait := target_move_time - elapsed
  if remaining_wait > 0 then remaining_wait else 0

/-- The observable outcome of one `_maybe_make_move` invocation: `none` when
no `make_move` call is issued, `some (gid, mv)` when `make_move(gid, mv)` is
POSTed to the API.  `gameIdAtSubmit` is the value `self.current_game_id`
holds when the `make_move` line finally runs. -/
def maybeMakeMove (gameBoardSet engineSet : Bool) (gameIdAtStart : Option String)
    (gameOver whiteToMove : Bool) (our_color : Option String)
    (engineMove : Option String) (gameIdAtSubmit : Option String) :
    Option (Option String × String) :=
  if !gameBoardSet || !engineSet || !pyTruthy gameIdAtStart then none
  else if gameOver then none
  else if !isOurTurn whiteToMove our_color then none
  else
    match engineMove with
    | none => none
    | some mv => some (gameIdAtSubmit, mv)

/-- C1 counterexample: every entry check passes (live game "abc", white to
move, we are white, engine returns "e2e4"), but during the engine await or
throttle sleep the session ends (`_on_game_finish` sets `current_game_id` to
`None`); `_maybe_make_move` nevertheless issues `make_move(None, "e2e4")` —
the stale move is submitted to the remote service, not discarded. -/
theorem c1_counterexample :
    maybeMakeMove true true (some "abc") false true (some "white")
      (some "e2e4") none = some (none, "e2e4") ∧
    maybeMakeMove true true (some "abc") false true (some "white")
      (some "e2e4") none ≠ none := by decide

/-- C1 (amended): the session and turn preconditions are checked once, at
entry, before the engine call; when they all hold and the engine returns a
move, the move is submitted unconditionally after the throttle, using
whatever `current_game_id` holds at that moment — there is no re-check at
submission time, so a session that ends during the engine call or throttle
does not prevent submission.  When an entry check fails or the engine
returns no move, nothing is submitted. -/
theorem c1_checks_only_at_entry (gameBoardSet engineSet : Bool)
    (gameIdAtStart : Option String) (gameOver whiteToMove : Bool)
    (our_color : Option String) (engineMove : Option String)
    (gameIdAtSubmit : Option String) :
    (maybeMakeMove gameBoardSet engineSet gameIdAtStart gameOver whiteToMove
        our_color engineMove gameIdAtSubmit = none ↔
      (gameBoardSet = false ∨ engineSet = false ∨
       pyTruthy gameIdAtStart = false ∨ gameOver = true ∨
       isOurTurn whiteToMove our_color = false ∨ engineMove = none)) ∧
    (∀ mv, engineMove = some mv → gameBoardSet = true → engineSet = true →
      pyTruthy gameIdAtStart = true → gameOver = false →
      isOurTurn whiteToMove our_color = true →
      maybeMakeMove gameBoardSet engineSet gameIdAtStart gameOver whiteToMove
        our_color engineMove gameIdAtSubmit = some (gameIdAtSubmit, mv)) := by
  constructor
  · cases gameBoardSet <;> cases engineSet <;> cases gameOver <;>
      cases h1 : pyTruthy gameIdAtStart <;>
      cases h2 : isOurTurn whiteToMove our_color <;>
      cases engineMove <;> simp [maybeMakeMove, h1, h2]
  · intro mv hmv hb he hg hov ht
    simp [maybeMakeMove, hmv, hb, he, hg, hov, ht]

/-- Witness for C1 (amended): with all entry checks passing and the game
still live at submission, the engine move is submitted with that game id. -/
theorem c1_amended_witness :
    maybeMakeMove true true (some "abc") false true (some "white")
      (some "e2e4") (some "abc") = some (some "abc", "e2e4") :=
  (c1_checks_only_at_entry true true (some "abc") false true (some "white")
    (some "e2e4") (some "abc")).2 "e2e4" rfl rfl rfl (by decide) rfl (by decide)

/-- C6: the engine search is always invoked with a time cap equal to the
configured maximum of the current move-number tier (in particular the cap is
never absent/unbounded), and the sleep inserted between the engine returning
a move and its submission is exactly max(0, target − elapsed): positive only
when the sampled target exceeds the time already spent, and zero — no extra
delay — once the elapsed time reaches the target. -/
theorem c6_time_cap_and_throttle (cfg : ThinkTimeConfig)
    (fullmove_number : Nat) (singleNode : Bool) (wtime btime winc binc : ℤ)
    (target_move_time elapsed : ℚ) :
    (schedulerEngineLimit cfg fullmove_number singleNode wtime btime winc
        binc).time = some (thinkTimeRange cfg fullmove_number).2 ∧
    (schedulerEngineLimit cfg fullmove_number singleNode wtime btime winc
        binc).time ≠ none ∧
    throttleWait target_move_time elapsed =
      max 0 (target_move_time - elapsed) ∧
    (elapsed ≥ target_move_time → throttleWait target_move_time elapsed = 0) := by
  refine ⟨?_, ?_, ?_, ?_⟩
  · simp [schedulerEngineLimit, buildEngineLimit]
  · simp [schedulerEngineLimit, buildEngineLimit]
  · by_cases h : target_move_time - elapsed > 0
    · rw [throttleWait, if_pos h, max_eq_right (le_of_lt h)]
    · rw [throttleWait, if_neg h, max_eq_left (by linarith [not_lt.mp h])]
  · intro h
    rw [throttleWait, if_neg (by simp; linarith)]

/-- Witness for C6 at concrete values: opening tier (move 3, cap 5 s) and an
engine that took 4 s against a 2.5 s target, so no throttle sleep occurs. -/
theorem c6_witness :
    (schedulerEngineLimit ⟨1, 5, 2, 8⟩ 3 false 60000 60000 0 0).time =
      some (thinkTimeRange ⟨1, 5, 2, 8⟩ 3).2 ∧
    (4 : ℚ) ≥ (5 : ℚ)/2 ∧ throttleWait ((5 : ℚ)/2) 4 = 0 :=
  ⟨(c6_time_cap_and_throttle ⟨1, 5, 2, 8⟩ 3 false 60000 60000 0 0
      ((5 : ℚ)/2) 4).1,
   by norm_num,
   (c6_time_cap_and_throttle ⟨1, 5, 2, 8⟩ 3 false 60000 60000 0 0
      ((5 : ℚ)/2) 4).2.2.2 (by norm_num)⟩

/-! ### Game-finish statistics

From `main_window.py`, `_on_game_finish`, lines 1277-1358: when the event's
`status` is `aborted` or `noStart` the handler resets the UI and reseeks
without touching statistics or game history; otherwise it computes the result
(`win` when `winner == our_color` — Python `None == None` included —, `loss`
when `winner` is some other value, `draw` when `winner` is `None`), calls
`db.update_statistics(result)` once, and calls `db.add_game(...)` once. -/

inductive GameResult
  | win
  | loss
  | draw
deriving DecidableEq

/-- The persistent-statistics effects of one `_on_game_finish` invocation:
the list of `db.update_statistics` calls and the number of `db.add_game`
calls it makes. -/
structure FinishEffects where
  stats_updates : List GameResult
  games_added : Nat
deriving DecidableEq

def onGameFinishEffects (status : String) (winner our_color : Option String) :
    FinishEffects :=
  if status = "aborted" ∨ status = "noStart" then ⟨[], 0⟩
  else
    let result := if winner = our_color then GameResult.win
      else if winner ≠ none then GameResult.loss
      else GameResult.draw
    ⟨[result], 1⟩

/-- C7: a `gameFinish` event with status `aborted` or `noStart` produces no
statistics update and no game-history record; an event with any other status
produces exactly one statistics update (a win, loss or draw) and exactly one
game-history record. -/
theorem c7_finish_statistics (status : String) (winner our_color : Option String) :
    ((status = "aborted" ∨ status = "noStart") →
      onGameFinishEffects status winner our_color = ⟨[], 0⟩) ∧
    (status ≠ "aborted" → status ≠ "noStart" →
      (onGameFinishEffects status winner our_color).stats_updates.length = 1 ∧
      (onGameFinishEffects status winner our_color).games_added = 1) := by
  constructor
  · intro h
    simp [onGameFinishEffects, h]
  · intro h1 h2
    simp [onGameFinishEffects, h1, h2]

/-- Witness for C7 at concrete events: an aborted game is not counted; a
checkmate is counted exactly once in statistics and game history. -/
theorem c7_witness :
    onGameFinishEffects "aborted" none (some "white") = ⟨[], 0⟩ ∧
    (onGameFinishEffects "mate" (some "white") (some "white")).stats_updates.length = 1 ∧
    (onGameFinishEffects "mate" (some "white") (some "white")).games_added = 1 :=
  ⟨(c7_finish_statistics "aborted" none (some "white")).1 (Or.inl rfl),
   ((c7_finish_statistics "mate" (some "white") (some "white")).2
      (by decide) (by decide)).1,
   ((c7_finish_statistics "mate" (some "white") (some "white")).2
      (by decide) (by decide)).2⟩

end LichessAutobot
